import Mathlib

/-!
# xrectsel: a shallow embedding of `src/xrectsel.c`

The program grabs the pointer, lets the user drag a rectangle on the root
window and prints the geometry of the selection through a small format
language.

Modelling conventions.

* C `int` and `unsigned int` are 32 bits wide.  A value of either type is a
  Lean `Int` / `Nat`; every arithmetic operation of the source is followed by
  the explicit reduction the machine performs (`intWrap`, `uintWrap`).
* Xlib is an external collaborator.  What it hands to the program (the status
  of `XGrabPointer`, the queue of events, the answer of `XGetGeometry`) is an
  input of the model; what the program asks of it is recorded, in order, as a
  list of `XCall`s.
* `XNextEvent` blocks until an event arrives.  On an exhausted queue the call
  never returns, which the model renders as `none`.
* A C string is the list of `char`s found in memory from the pointer onwards,
  the terminating NUL and whatever follows it included.
-/

namespace Xrectsel

/-! ## Machine integers -/

/-- Two to the thirty-second: the number of values of a 32-bit word. -/
def WORD : Nat := 4294967296

/-- Largest value of a C `int`. -/
def INT_MAX : Int := 2147483647

/-- Conversion of an integer to `unsigned int`: reduction modulo `2^32`. -/
def uintWrap (v : Int) : Nat := (v % (WORD : Int)).toNat

/-- Conversion of an integer to `int`: the representative of `v` modulo `2^32`
that lies in `[INT_MIN, INT_MAX]` (two's complement). -/
def intWrap (v : Int) : Int :=
  if v % (WORD : Int) ≤ INT_MAX then v % (WORD : Int) else v % (WORD : Int) - (WORD : Int)

/-- The C expression `a - b` on two `int`s.  Signed overflow, which C leaves
undefined, wraps as on a two's-complement machine; it cannot occur for the
16-bit coordinates the X11 protocol delivers. -/
def intSub (a b : Int) : Int := intWrap (a - b)

/-- The C expression `a - b` on two `unsigned int`s. -/
def uintSub (a b : Nat) : Nat := uintWrap ((a : Int) - (b : Int))

/-! ## Data model -/

/-- The `struct Region` of the source, without its `root` member: the selected
region's `root` is never assigned by `select_region` and never read by
`print_region_attr`. -/
structure Region where
  x : Int
  y : Int
  X : Int
  Y : Int
  w : Nat
  h : Nat
  b : Nat
  d : Nat
deriving DecidableEq, Repr

/-- An event as delivered by `XNextEvent`, reduced to what `select_region`
reads of it: the type and the root-relative pointer position. -/
inductive XEvent where
  | ButtonPress (x_root y_root : Int)
  | MotionNotify (x_root y_root : Int)
  | ButtonRelease (x_root y_root : Int)
  | Other
deriving DecidableEq, Repr

/-- The Xlib requests issued by `select_region`, with the arguments that
matter here. -/
inductive XCall where
  | XCreateFontCursor
  | XGrabPointer
  | XCreateGC
  | XNextEvent
  | XGrabServer
  | XDrawRectangle (x y : Int) (width height : Nat)
  | XFlush
  | XUngrabServer
  | XUngrabPointer
  | XFreeCursor
  | XFreeGC
  | XSync
  | XGetGeometry
deriving DecidableEq, Repr

/-- What `XGetGeometry` stores for the root window when it succeeds. -/
structure RootGeometry where
  x : Int
  y : Int
  w : Nat
  h : Nat
  b : Nat
  d : Nat
deriving DecidableEq, Repr

/-- Status `GrabSuccess` of `XGrabPointer`. -/
def GrabSuccess : Int := 0

/-- Exit status `EXIT_SUCCESS`. -/
def EXIT_SUCCESS : Int := 0

/-- Exit status `EXIT_FAILURE`. -/
def EXIT_FAILURE : Int := 1

/-! ## `select_region` -/

/-- The local variables of `select_region` that the event loop updates. -/
structure Locals where
  done : Bool
  btn_pressed : Bool
  x : Int
  y : Int
  width : Nat
  height : Nat
  start_x : Int
  start_y : Int
deriving DecidableEq, Repr

/-- The initialisers of lines 142-145. -/
def Locals.init : Locals :=
  { done := false, btn_pressed := false, x := 0, y := 0, width := 0, height := 0,
    start_x := 0, start_y := 0 }

/-- One axis of the `MotionNotify` case (lines 186-191 and 192-197): from the
pointer coordinate `p` and the anchor `start`, the new origin and extent. -/
def span (p start : Int) : Int × Nat :=
  if p > start then (start, uintWrap (intSub p start))
  else (p, uintWrap (intSub start p))

/-- The body of the `switch (ev.type)` of lines 167-209: the updated locals
and the Xlib calls issued while handling one event. -/
def handle_event (xgrab : Int) (st : Locals) : XEvent → Locals × List XCall
  | .ButtonPress ex ey =>
    ({ st with btn_pressed := true, x := ex, start_x := ex, y := ey, start_y := ey,
               width := 0, height := 0 },
     if xgrab ≠ 0 then [XCall.XGrabServer] else [])
  | .MotionNotify ex ey =>
    if st.btn_pressed then
      let sx := span ex st.start_x
      let sy := span ey st.start_y
      ({ st with x := sx.1, y := sy.1, width := sx.2, height := sy.2 },
       [XCall.XDrawRectangle st.x st.y st.width st.height,
        XCall.XDrawRectangle sx.1 sy.1 sx.2 sy.2,
        XCall.XFlush])
    else (st, [])
  | .ButtonRelease _ _ => ({ st with done := true }, [])
  | .Other => (st, [])

/-- The `for (;;)` loop of lines 165-212 run on the queue of pending events.
Returns the locals at loop exit, the Xlib calls issued and the events left in
the queue; `none` when the queue runs dry before a `ButtonRelease` arrives,
in which case `XNextEvent` blocks for ever. -/
def event_loop (xgrab : Int) : List XEvent → Locals → Option (Locals × List XCall × List XEvent)
  | [], _ => none
  | ev :: rest, st =>
    let r := handle_event xgrab st ev
    if r.1.done then some (r.1, XCall.XNextEvent :: r.2, rest)
    else
      match event_loop xgrab rest r.1 with
      | none => none
      | some (st', calls, queue) => some (st', XCall.XNextEvent :: (r.2 ++ calls), queue)

/-- The observable outcome of a call of `select_region` that returns. -/
structure Selection where
  /-- The value returned. -/
  status : Int
  /-- The value stored through the `region` pointer, `none` when nothing was stored. -/
  region : Option Region
  /-- The Xlib calls issued, in order. -/
  calls : List XCall
  /-- The messages passed to `error`, in order. -/
  errors : List String
  /-- The events left unread in the queue. -/
  queue : List XEvent
deriving DecidableEq, Repr

/-- The calls of lines 214-227, issued between the exit of the loop and the
test of what `XGetGeometry` answered: the last rectangle is stroked once
more, both grabs are released, the cursor and the GC are freed, the output is
synchronised and the root geometry is queried. -/
def after_loop (st : Locals) : List XCall :=
  [XCall.XDrawRectangle st.x st.y st.width st.height, XCall.XFlush,
   XCall.XUngrabServer, XCall.XUngrabPointer, XCall.XFreeCursor, XCall.XFreeGC,
   XCall.XSync, XCall.XGetGeometry]

/-- The selected region `sr` of lines 231-240, from the locals at loop exit
and the root geometry `rr`.  In `rr.w - sr.x - sr.w` the `int` `sr.x` is
converted to `unsigned int`, both subtractions are unsigned, and the result is
converted to `int` by the assignment. -/
def selected (st : Locals) (rr : RootGeometry) : Region :=
  { x := st.x, y := st.y, w := st.width, h := st.height,
    X := intWrap (uintSub (uintSub rr.w (uintWrap st.x)) st.width),
    Y := intWrap (uintSub (uintSub rr.h (uintWrap st.y)) st.height),
    b := rr.b, d := rr.d }

/-- The function `select_region` of lines 135-243.  `grab_status` is what
`XGrabPointer` answers, `events` the queue `XNextEvent` reads from, and
`geometry` what `XGetGeometry` answers (`none` for `False`). -/
def select_region (grab_status : Int) (events : List XEvent)
    (geometry : Option RootGeometry) (xgrab : Int) : Option Selection :=
  if grab_status ≠ GrabSuccess then
    some { status := EXIT_FAILURE, region := none,
           calls := [XCall.XCreateFontCursor, XCall.XGrabPointer],
           errors := ["failed to grab pointer\n"], queue := events }
  else
    match event_loop xgrab events Locals.init with
    | none => none
    | some (st, loop_calls, queue) =>
      let calls :=
        [XCall.XCreateFontCursor, XCall.XGrabPointer, XCall.XCreateGC] ++ loop_calls ++
          after_loop st
      match geometry with
      | none =>
        some { status := EXIT_FAILURE, region := none, calls := calls,
               errors := ["failed to get root window geometry\n"], queue := queue }
      | some rr =>
        some { status := EXIT_SUCCESS, region := some (selected st rr), calls := calls,
               errors := [], queue := queue }

/-! ## `print_region_attr` -/

/-- The NUL character that terminates a C string. -/
def NUL : Char := Char.ofNat 0

/-- The conversion `%u` of `printf`: the decimal digits of an `unsigned int`. -/
def fmt_u (n : Nat) : List Char := Nat.toDigits 10 n

/-- The conversion `%i` of `printf`: the decimal digits of an `int`, after a
minus sign when it is negative. -/
def fmt_i (v : Int) : List Char :=
  if v < 0 then '-' :: Nat.toDigits 10 v.natAbs else Nat.toDigits 10 v.toNat

/-- The `switch (*++s)` of lines 98-126: what is written for the character
that follows a `%`. -/
def directive (region : Region) (c : Char) : List Char :=
  if c = '%' then ['%']
  else if c = 'x' then fmt_i region.x
  else if c = 'y' then fmt_i region.y
  else if c = 'X' then fmt_i region.X
  else if c = 'Y' then fmt_i region.Y
  else if c = 'w' then fmt_u region.w
  else if c = 'h' then fmt_u region.h
  else if c = 'b' then fmt_u region.b
  else if c = 'd' then fmt_u region.d
  else []

/-- What a run of `print_region_attr` did: the characters written to the
standard output, and the offsets from `fmt` of the characters it read, in
order. -/
structure Printed where
  out : List Char
  reads : List Nat
deriving DecidableEq, Repr

/-- The loop `for (s = fmt; *s; ++s)` of lines 96-130, entered with `s`
pointing `pos` characters after `fmt` and `mem` the memory from `s` onwards.
An iteration reads `*s` in the loop test and again in `*s == '%'`, then either
`*++s` (a directive, which advances `s` once more than the loop does) or `*s`
for `putchar`.  `none` when a read falls outside `mem`. -/
def scan (region : Region) : List Char → Nat → Option Printed
  | [], _ => none
  | c :: rest, pos =>
    if c = NUL then some { out := [], reads := [pos] }
    else if c = '%' then
      match rest with
      | [] => none
      | d :: rest' =>
        match scan region rest' (pos + 2) with
        | none => none
        | some p =>
          some { out := directive region d ++ p.out, reads := pos :: pos :: (pos + 1) :: p.reads }
    else
      match scan region rest (pos + 1) with
      | none => none
      | some p => some { out := c :: p.out, reads := pos :: pos :: pos :: p.reads }

/-- The function `print_region_attr` of lines 92-133, on the memory `fmt`
points to.  Its return value is always `0` and is not modelled. -/
def print_region_attr (fmt : List Char) (region : Region) : Option Printed :=
  scan region fmt 0

/-! ## `main` -/

/-- The format `main` uses when none is given (line 68), as the string literal
lies in memory. -/
def default_fmt : List Char := "%wx%h+%x+%y\n".toList ++ [NUL]

/-- The characters of the C string that starts at `mem`, terminator excluded. -/
def cstr (mem : List Char) : List Char := mem.takeWhile (fun c => c ≠ NUL)

/-- The offset of the first NUL of `mem`: the terminator of the C string that
starts there. -/
def terminator (mem : List Char) : Nat := (cstr mem).length

/-- What a run of `main` leaves behind: the exit status, the characters
written to the standard output and the messages passed to `error`, which
writes each to the standard error after the prefix `xrectsel: `. -/
structure Exit where
  status : Int
  stdout : List Char
  stderr : List String
deriving DecidableEq, Repr

/-- The function `main` of lines 46-80.  `display` tells whether
`XOpenDisplay` succeeds and `argv` holds the memory of each argument; the
other inputs are those of `select_region`.  A `die` ends the run with
`EXIT_FAILURE` after its message. -/
def main (display : Bool) (argv : List (List Char)) (grab_status : Int)
    (events : List XEvent) (geometry : Option RootGeometry) : Option Exit :=
  if display = false then
    some { status := EXIT_FAILURE, stdout := [], stderr := ["failed to open display %s\n"] }
  else
    let argc := argv.length
    let flag : Bool := decide (argc > 1) && decide (cstr (argv.getD 1 []) = "--xgrab".toList)
    let xgrab : Int := if flag then 1 else 0
    let opt : Nat := if flag then 2 else 1
    let fmt := if argc > opt then argv.getD opt [] else default_fmt
    match select_region grab_status events geometry xgrab with
    | none => none
    | some s =>
      if s.status ≠ EXIT_SUCCESS then
        some { status := EXIT_FAILURE, stdout := [],
               stderr := s.errors ++ ["failed to select a rectangular region\n"] }
      else
        match s.region with
        | none => none
        | some sr =>
          match print_region_attr fmt sr with
          | none => none
          | some p => some { status := EXIT_SUCCESS, stdout := p.out, stderr := s.errors }


/-! ## Auxiliary definitions used to state and prove the properties -/

/-- Whether an event is a `ButtonRelease`. -/
def XEvent.isRelease : XEvent → Bool
  | .ButtonRelease _ _ => true
  | _ => false

/-- The locals after the events `evs` have been handled in turn. -/
def run (xgrab : Int) : Locals → List XEvent → Locals
  | st, [] => st
  | st, ev :: evs => run xgrab (handle_event xgrab st ev).1 evs

/-- The Xlib calls issued while the events `evs` are fetched and handled in
turn. -/
def run_calls (xgrab : Int) : Locals → List XEvent → List XCall
  | _, [] => []
  | st, ev :: evs =>
    XCall.XNextEvent :: ((handle_event xgrab st ev).2 ++ run_calls xgrab (handle_event xgrab st ev).1 evs)

/-- The effect of one Xlib call on the grabs the client holds, as a pair
(pointer grabbed, server grabbed).  The server grab is not counted: one
`XUngrabServer` releases it however many `XGrabServer` came before. -/
def grab_step (g : Bool × Bool) : XCall → Bool × Bool
  | .XGrabPointer => (true, g.2)
  | .XUngrabPointer => (false, g.2)
  | .XGrabServer => (g.1, true)
  | .XUngrabServer => (g.1, false)
  | _ => g

/-- The grabs held after a sequence of calls, starting with none; every
`XGrabPointer` in the sequence is taken to have succeeded. -/
def held (calls : List XCall) : Bool × Bool := calls.foldl grab_step (false, false)

/-- Whether an event is a `ButtonPress`. -/
def XEvent.isPress : XEvent → Bool
  | .ButtonPress _ _ => true
  | _ => false

/-- The stroke of the rectangle currently tracked by the locals. -/
def rect (st : Locals) : XCall := XCall.XDrawRectangle st.x st.y st.width st.height

/-- How many times the rectangle `(x, y, width, height)` was stroked. -/
def strokes (x y : Int) (width height : Nat) (calls : List XCall) : Nat :=
  calls.count (XCall.XDrawRectangle x y width height)

/-- The locals right after a first press at `(ax, ay)`. -/
def pressed_at (ax ay : Int) : Locals :=
  { done := false, btn_pressed := true, x := ax, y := ay, width := 0, height := 0,
    start_x := ax, start_y := ay }

/-- The `MotionNotify` events at the given pointer positions. -/
def motions (ps : List (Int × Int)) : List XEvent :=
  ps.map (fun p => XEvent.MotionNotify p.1 p.2)

/-! ## Theorems -/

/-- C6: a press at `P` followed at once by a release at `P`, with the pointer
grab and the geometry query succeeding, makes `select_region` return success
with a region of width 0 and height 0 whose origin is `P`. -/
theorem zero_length_drag (px py : Int) (rr : RootGeometry) (xgrab : Int) :
    ∃ s r, select_region GrabSuccess [.ButtonPress px py, .ButtonRelease px py] (some rr) xgrab
        = some s ∧
      s.status = EXIT_SUCCESS ∧ s.region = some r ∧
      r.w = 0 ∧ r.h = 0 ∧ r.x = px ∧ r.y = py := by
  simp [select_region, event_loop, handle_event, Locals.init, selected]

/-- C4: when `XGrabPointer` answers anything but `GrabSuccess`,
`select_region` returns `EXIT_FAILURE` with the event queue untouched, no
`XNextEvent`, `XDrawRectangle` or `XGrabServer` issued and nothing stored
through `region`; `main` then writes nothing to the standard output and exits
with a non-zero status. -/
theorem grab_failure (grab_status : Int) (h : grab_status ≠ GrabSuccess)
    (events : List XEvent) (geometry : Option RootGeometry) (xgrab : Int)
    (display : Bool) (argv : List (List Char)) :
    (∃ s, select_region grab_status events geometry xgrab = some s ∧
      s.status = EXIT_FAILURE ∧ s.queue = events ∧ s.region = none ∧
      XCall.XNextEvent ∉ s.calls ∧ XCall.XGrabServer ∉ s.calls ∧
      ∀ x y w h, XCall.XDrawRectangle x y w h ∉ s.calls) ∧
    (∃ e, main display argv grab_status events geometry = some e ∧
      e.stdout = [] ∧ e.status ≠ 0) := by
  constructor
  · simp [select_region, h]
  · cases display <;> simp [main, select_region, h, EXIT_FAILURE, EXIT_SUCCESS]

/-- Witness of C4: the pointer is already grabbed (`AlreadyGrabbed = 1`) while
a full drag is waiting in the queue. -/
theorem grab_failure_witness :
    (1 : Int) ≠ GrabSuccess ∧
    ((∃ s, select_region 1 [.ButtonPress 1 2, .MotionNotify 5 7, .ButtonRelease 5 7]
        (some ⟨0, 0, 1920, 1080, 0, 24⟩) 1 = some s ∧
      s.status = EXIT_FAILURE ∧
      s.queue = [.ButtonPress 1 2, .MotionNotify 5 7, .ButtonRelease 5 7] ∧
      s.region = none ∧
      XCall.XNextEvent ∉ s.calls ∧ XCall.XGrabServer ∉ s.calls ∧
      ∀ x y w h, XCall.XDrawRectangle x y w h ∉ s.calls) ∧
    (∃ e, main true ["xrectsel".toList ++ [NUL]] 1
        [.ButtonPress 1 2, .MotionNotify 5 7, .ButtonRelease 5 7]
        (some ⟨0, 0, 1920, 1080, 0, 24⟩) = some e ∧
      e.stdout = [] ∧ e.status ≠ 0)) :=
  ⟨by decide, grab_failure 1 (by decide) _ _ 1 true _⟩

/-- The loop stops on the terminator, having read it once. -/
theorem scan_nul (region : Region) (tail : List Char) (pos : Nat) :
    scan region (NUL :: tail) pos = some { out := [], reads := [pos] } := by
  conv_lhs => rw [scan.eq_def]
  simp only [if_pos]

/-- A `%` consumes the character after it as a directive. -/
theorem scan_percent (region : Region) (d : Char) (rest : List Char) (pos : Nat) :
    scan region ('%' :: d :: rest) pos =
      (scan region rest (pos + 2)).map (fun p =>
        { out := directive region d ++ p.out, reads := pos :: pos :: (pos + 1) :: p.reads }) := by
  have h : ¬ ('%' = NUL) := by decide
  conv_lhs => rw [scan.eq_def]
  simp only [if_neg h, if_pos]
  cases scan region rest (pos + 2) <;> rfl

/-- Any character other than NUL and `%` is copied to the output. -/
theorem scan_plain (region : Region) (c : Char) (rest : List Char) (pos : Nat)
    (h0 : c ≠ NUL) (h1 : c ≠ '%') :
    scan region (c :: rest) pos =
      (scan region rest (pos + 1)).map (fun p =>
        { out := c :: p.out, reads := pos :: pos :: pos :: p.reads }) := by
  conv_lhs => rw [scan.eq_def]
  simp only [if_neg h0, if_neg h1]
  cases scan region rest (pos + 1) <;> rfl

/-- C7: with the default format, `print_region_attr` writes the unsigned
decimal of `w`, an `x`, the unsigned decimal of `h`, a `+`, the signed decimal
of `x`, a `+`, the signed decimal of `y` and a newline, whatever lies in
memory after the format; for x=10, y=20, w=300, h=150 this is
`300x150+10+20` and a newline, whatever `X`, `Y`, `b` and `d` are. -/
theorem default_format_output :
    (∀ (region : Region) (tail : List Char),
      ∃ p, print_region_attr (default_fmt ++ tail) region = some p ∧
        p.out = fmt_u region.w ++ 'x' :: (fmt_u region.h ++ '+' :: (fmt_i region.x ++
                  '+' :: (fmt_i region.y ++ ['\n'])))) ∧
    (∀ (X Y : Int) (b d : Nat) (tail : List Char),
      ∃ p, print_region_attr (default_fmt ++ tail) ⟨10, 20, X, Y, 300, 150, b, d⟩ = some p ∧
        p.out = "300x150+10+20\n".toList) := by
  constructor
  · intro region tail
    have hx : 'x' ≠ NUL := by decide
    have hp : '+' ≠ NUL := by decide
    have hn : '\n' ≠ NUL := by decide
    simp [print_region_attr, default_fmt, scan_nul, scan_percent, scan_plain, hx, hp, hn,
      directive]
  · intro X Y b d tail
    have hx : 'x' ≠ NUL := by decide
    have hp : '+' ≠ NUL := by decide
    have hn : '\n' ≠ NUL := by decide
    simp [print_region_attr, default_fmt, scan_nul, scan_percent, scan_plain, hx, hp, hn,
      directive, fmt_u, fmt_i]
    decide

/-- C8: on the format `%%w=%w`, `print_region_attr` writes the three
characters `%w=` followed by the unsigned decimal of the width. -/
theorem percent_escape_output (region : Region) (tail : List Char) :
    ∃ p, print_region_attr ("%%w=%w".toList ++ NUL :: tail) region = some p ∧
      p.out = '%' :: 'w' :: '=' :: fmt_u region.w := by
  have hw : 'w' ≠ NUL := by decide
  have he : '=' ≠ NUL := by decide
  simp [print_region_attr, scan_nul, scan_percent, scan_plain, hw, he, directive]

/-! ### The event loop -/

/-- Handling an event other than a release leaves `done` as it was. -/
theorem handle_event_done (xgrab : Int) (st : Locals) (ev : XEvent)
    (h : ev.isRelease = false) : (handle_event xgrab st ev).1.done = st.done := by
  cases ev with
  | ButtonPress ex ey => simp [handle_event]
  | MotionNotify ex ey => by_cases hb : st.btn_pressed <;> simp [handle_event, hb]
  | ButtonRelease ex ey => simp [XEvent.isRelease] at h
  | Other => simp [handle_event]

/-- The loop runs through the events that precede the first release, leaves
on that release and does not touch what follows it. -/
theorem event_loop_split (xgrab : Int) (rx ry : Int) (rest : List XEvent) :
    ∀ (evs : List XEvent) (st : Locals), (∀ e ∈ evs, e.isRelease = false) → st.done = false →
      event_loop xgrab (evs ++ XEvent.ButtonRelease rx ry :: rest) st =
        some ((handle_event xgrab (run xgrab st evs) (XEvent.ButtonRelease rx ry)).1,
              run_calls xgrab st evs ++ [XCall.XNextEvent], rest) := by
  intro evs
  induction evs with
  | nil =>
    intro st _ _
    simp [event_loop, handle_event, run, run_calls]
  | cons ev evs ih =>
    intro st hev hd
    have h1 : ev.isRelease = false := hev ev (List.mem_cons_self _ _)
    have h2 : (handle_event xgrab st ev).1.done = false := by
      rw [handle_event_done xgrab st ev h1]; exact hd
    have h3 := ih (handle_event xgrab st ev).1
      (fun e he => hev e (List.mem_cons_of_mem _ he)) h2
    rw [List.cons_append, event_loop]
    simp only [h2, h3, run, run_calls]
    simp

/-- No `MotionNotify` is a release. -/
theorem motions_no_release (ps : List (Int × Int)) :
    ∀ e ∈ motions ps, e.isRelease = false := by
  intro e he
  simp only [motions, List.mem_map] at he
  obtain ⟨p, _, rfl⟩ := he
  rfl

/-- While the button is held, the rectangle after a run of motions is the one
spanned by the anchor and the last pointer position; the anchor and the
button state do not change. -/
theorem run_motions_last (xgrab : Int) (bx by_ : Int) :
    ∀ (ps : List (Int × Int)) (st : Locals), st.btn_pressed = true →
      run xgrab st (motions (ps ++ [(bx, by_)])) =
        { st with x := (span bx st.start_x).1, y := (span by_ st.start_y).1,
                  width := (span bx st.start_x).2, height := (span by_ st.start_y).2 } := by
  intro ps
  induction ps with
  | nil =>
    intro st hb
    simp [motions, run, handle_event, hb]
  | cons p ps ih =>
    intro st hb
    have h := ih (handle_event xgrab st (XEvent.MotionNotify p.1 p.2)).1
      (by simp [handle_event, hb])
    have hc : motions (p :: ps ++ [(bx, by_)]) =
        XEvent.MotionNotify p.1 p.2 :: motions (ps ++ [(bx, by_)]) := rfl
    rw [hc, run, h]
    simp [handle_event, hb]

/-! ### Machine arithmetic -/

/-- The two ways round of measuring one axis give the same origin and extent. -/
theorem span_comm (a b : Int) : span a b = span b a := by
  unfold span
  by_cases h1 : a > b
  · have h2 : ¬ b > a := by omega
    simp [h1, h2]
  · by_cases h2 : b > a
    · simp [h1, h2]
    · have : a = b := by omega
      subst this
      rfl

/-- A difference that fits an `int` and is not negative survives the
subtraction and the conversion to `unsigned int` unchanged. -/
theorem uintWrap_intSub (a b : Int) (h0 : 0 ≤ a - b) (h1 : a - b ≤ INT_MAX) :
    ((uintWrap (intSub a b) : Nat) : Int) = a - b := by
  unfold uintWrap intSub intWrap INT_MAX WORD at *
  split_ifs <;> omega

/-- With both coordinates in the signed 16-bit range, the anchor lies between
the origin and the origin plus the extent. -/
theorem span_anchor (p start : Int) (hp0 : -32768 ≤ p) (hp1 : p ≤ 32767)
    (hs0 : -32768 ≤ start) (hs1 : start ≤ 32767) :
    (span p start).1 ≤ start ∧ start ≤ (span p start).1 + ((span p start).2 : Int) := by
  unfold span
  by_cases h : p > start
  · have := uintWrap_intSub p start (by omega) (by unfold INT_MAX; omega)
    simp only [h, if_true]
    omega
  · have := uintWrap_intSub start p (by omega) (by unfold INT_MAX; omega)
    simp only [h, if_false]
    omega

/-- With the pointer grabbed, `select_region` returns as soon as the queue
holds a release: the events `evs` before the first release are handled, the
calls of `after_loop` follow, and the outcome depends on the geometry query
alone. -/
theorem select_region_release (xgrab : Int) (evs : List XEvent) (rx ry : Int)
    (rest : List XEvent) (geometry : Option RootGeometry)
    (hev : ∀ e ∈ evs, e.isRelease = false) :
    select_region GrabSuccess (evs ++ XEvent.ButtonRelease rx ry :: rest) geometry xgrab =
      some
        { status := if geometry.isSome then EXIT_SUCCESS else EXIT_FAILURE,
          region := geometry.map (selected (run xgrab Locals.init evs)),
          calls := [XCall.XCreateFontCursor, XCall.XGrabPointer, XCall.XCreateGC] ++
            (run_calls xgrab Locals.init evs ++ [XCall.XNextEvent]) ++
            after_loop (run xgrab Locals.init evs),
          errors := if geometry.isSome then [] else ["failed to get root window geometry\n"],
          queue := rest } := by
  have h := event_loop_split xgrab rx ry rest evs Locals.init hev rfl
  unfold select_region
  rw [h]
  cases geometry <;> simp [handle_event, after_loop, selected]

/-- A press followed by motions holds no release. -/
theorem drag_no_release (ax ay : Int) (ps : List (Int × Int)) :
    ∀ e ∈ XEvent.ButtonPress ax ay :: motions ps, e.isRelease = false := by
  intro e he
  rcases List.mem_cons.mp he with rfl | he
  · rfl
  · exact motions_no_release ps e he

/-- The locals right after a press at `(ax, ay)`. -/
theorem run_press (xgrab : Int) (ax ay : Int) (evs : List XEvent) :
    run xgrab Locals.init (XEvent.ButtonPress ax ay :: evs) =
      run xgrab { done := false, btn_pressed := true, x := ax, y := ay, width := 0,
                  height := 0, start_x := ax, start_y := ay } evs := by
  simp [run, handle_event, Locals.init]

/-- C1: after one press at `(ax, ay)`, any number of motions and a release,
all pointer coordinates being in the signed 16-bit range and both the pointer
grab and the geometry query succeeding, `select_region` returns success and
the anchor lies inside the region on both axes. -/
theorem anchor_inside (ax ay : Int) (ps : List (Int × Int)) (rx ry : Int)
    (rr : RootGeometry) (xgrab : Int)
    (hax : -32768 ≤ ax ∧ ax ≤ 32767) (hay : -32768 ≤ ay ∧ ay ≤ 32767)
    (hps : ∀ p ∈ ps, (-32768 ≤ p.1 ∧ p.1 ≤ 32767) ∧ (-32768 ≤ p.2 ∧ p.2 ≤ 32767)) :
    ∃ s r, select_region GrabSuccess
        (XEvent.ButtonPress ax ay :: (motions ps ++ [XEvent.ButtonRelease rx ry]))
        (some rr) xgrab = some s ∧
      s.status = EXIT_SUCCESS ∧ s.region = some r ∧
      r.x ≤ ax ∧ ax ≤ r.x + (r.w : Int) ∧ r.y ≤ ay ∧ ay ≤ r.y + (r.h : Int) := by
  have h := select_region_release xgrab (XEvent.ButtonPress ax ay :: motions ps) rx ry []
    (some rr) (drag_no_release ax ay ps)
  rw [List.cons_append] at h
  refine ⟨_, _, h, rfl, rfl, ?_⟩
  rw [run_press]
  rcases List.eq_nil_or_concat ps with rfl | ⟨qs, q, hc⟩
  · simp [motions, run, selected]
  · rw [List.concat_eq_append] at hc
    subst hc
    have hq := hps q (by simp)
    have hx := span_anchor q.1 ax hq.1.1 hq.1.2 hax.1 hax.2
    have hy := span_anchor q.2 ay hq.2.1 hq.2.2 hay.1 hay.2
    rw [show qs ++ [q] = qs ++ [(q.1, q.2)] from rfl, run_motions_last xgrab q.1 q.2 qs _ rfl]
    simp only [selected]
    exact ⟨hx.1, hx.2, hy.1, hy.2⟩

/-- Witness of C1: a drag from (100, 100) up and to the left, then across to
the lower right, on a 1920x1080 screen. -/
theorem anchor_inside_witness :
    ∃ s r, select_region GrabSuccess
        (XEvent.ButtonPress 100 100 ::
          (motions [(40, 70), (250, 180)] ++ [XEvent.ButtonRelease 250 180]))
        (some ⟨0, 0, 1920, 1080, 0, 24⟩) 0 = some s ∧
      s.status = EXIT_SUCCESS ∧ s.region = some r ∧
      r.x ≤ 100 ∧ 100 ≤ r.x + (r.w : Int) ∧ r.y ≤ 100 ∧ 100 ≤ r.y + (r.h : Int) :=
  anchor_inside 100 100 [(40, 70), (250, 180)] 250 180 ⟨0, 0, 1920, 1080, 0, 24⟩ 0
    (by decide) (by decide) (by decide)

/-- C2: dragging from `A` to `B` and dragging from `B` to `A` make
`select_region` return the same region, field for field. -/
theorem drag_direction_independent (ax ay bx by_ : Int) (ps qs : List (Int × Int))
    (rr : RootGeometry) (xgrab : Int) :
    ∃ s t r,
      select_region GrabSuccess
        (XEvent.ButtonPress ax ay :: (motions (ps ++ [(bx, by_)]) ++ [XEvent.ButtonRelease bx by_]))
        (some rr) xgrab = some s ∧
      select_region GrabSuccess
        (XEvent.ButtonPress bx by_ :: (motions (qs ++ [(ax, ay)]) ++ [XEvent.ButtonRelease ax ay]))
        (some rr) xgrab = some t ∧
      s.status = EXIT_SUCCESS ∧ t.status = EXIT_SUCCESS ∧
      s.region = some r ∧ t.region = some r := by
  have h1 := select_region_release xgrab
    (XEvent.ButtonPress ax ay :: motions (ps ++ [(bx, by_)])) bx by_ [] (some rr)
    (drag_no_release ax ay _)
  have h2 := select_region_release xgrab
    (XEvent.ButtonPress bx by_ :: motions (qs ++ [(ax, ay)])) ax ay [] (some rr)
    (drag_no_release bx by_ _)
  rw [List.cons_append] at h1 h2
  refine ⟨_, _, _, h1, h2, rfl, rfl, rfl, ?_⟩
  simp only [Option.map_some', run_press, run_motions_last]
  rw [span_comm ax bx, span_comm ay by_]
  simp [selected]

/-- A queue without a release keeps the loop waiting for ever. -/
theorem event_loop_none (xgrab : Int) :
    ∀ (events : List XEvent) (st : Locals), (∀ e ∈ events, e.isRelease = false) →
      st.done = false → event_loop xgrab events st = none := by
  intro events
  induction events with
  | nil => intro st _ _; rfl
  | cons ev evs ih =>
    intro st hev hd
    have h1 : ev.isRelease = false := hev ev (List.mem_cons_self _ _)
    have h2 : (handle_event xgrab st ev).1.done = false := by
      rw [handle_event_done xgrab st ev h1]; exact hd
    have h3 := ih (handle_event xgrab st ev).1
      (fun e he => hev e (List.mem_cons_of_mem _ he)) h2
    rw [event_loop]
    simp only [h2, h3]
    simp

/-- A queue either holds no release or splits at its first release. -/
theorem split_at_release :
    ∀ events : List XEvent, (∀ e ∈ events, e.isRelease = false) ∨
      ∃ evs rx ry rest, events = evs ++ XEvent.ButtonRelease rx ry :: rest ∧
        ∀ e ∈ evs, e.isRelease = false := by
  intro events
  induction events with
  | nil => left; simp
  | cons ev evs ih =>
    cases hev : ev with
    | ButtonRelease rx ry => exact Or.inr ⟨[], rx, ry, evs, rfl, by simp⟩
    | ButtonPress ex ey =>
      rcases ih with h | ⟨pre, rx, ry, rest, h, hp⟩
      · left; intro e he
        rcases List.mem_cons.mp he with rfl | he
        · rfl
        · exact h e he
      · refine Or.inr ⟨XEvent.ButtonPress ex ey :: pre, rx, ry, rest, by rw [h]; rfl, ?_⟩
        intro e he
        rcases List.mem_cons.mp he with rfl | he
        · rfl
        · exact hp e he
    | MotionNotify ex ey =>
      rcases ih with h | ⟨pre, rx, ry, rest, h, hp⟩
      · left; intro e he
        rcases List.mem_cons.mp he with rfl | he
        · rfl
        · exact h e he
      · refine Or.inr ⟨XEvent.MotionNotify ex ey :: pre, rx, ry, rest, by rw [h]; rfl, ?_⟩
        intro e he
        rcases List.mem_cons.mp he with rfl | he
        · rfl
        · exact hp e he
    | Other =>
      rcases ih with h | ⟨pre, rx, ry, rest, h, hp⟩
      · left; intro e he
        rcases List.mem_cons.mp he with rfl | he
        · rfl
        · exact h e he
      · refine Or.inr ⟨XEvent.Other :: pre, rx, ry, rest, by rw [h]; rfl, ?_⟩
        intro e he
        rcases List.mem_cons.mp he with rfl | he
        · rfl
        · exact hp e he

/-- Handling an event releases no grab. -/
theorem handle_event_no_ungrab (xgrab : Int) (st : Locals) (ev : XEvent) :
    XCall.XUngrabServer ∉ (handle_event xgrab st ev).2 ∧
    XCall.XUngrabPointer ∉ (handle_event xgrab st ev).2 := by
  cases ev with
  | ButtonPress ex ey => by_cases hx : xgrab = 0 <;> simp [handle_event, hx]
  | MotionNotify ex ey => by_cases hb : st.btn_pressed <;> simp [handle_event, hb]
  | ButtonRelease ex ey => simp [handle_event]
  | Other => simp [handle_event]

/-- The loop releases no grab. -/
theorem run_calls_no_ungrab (xgrab : Int) :
    ∀ (evs : List XEvent) (st : Locals),
      XCall.XUngrabServer ∉ run_calls xgrab st evs ∧
      XCall.XUngrabPointer ∉ run_calls xgrab st evs := by
  intro evs
  induction evs with
  | nil => intro st; simp [run_calls]
  | cons ev evs ih =>
    intro st
    have h1 := handle_event_no_ungrab xgrab st ev
    have h2 := ih (handle_event xgrab st ev).1
    simp only [run_calls, List.mem_cons, List.mem_append, not_or]
    exact ⟨⟨by simp, h1.1, h2.1⟩, ⟨by simp, h1.2, h2.2⟩⟩

/-- In a list `P ++ S` cut at an `a` that does not occur in `S`, all of `S`
comes after the cut. -/
theorem mem_after_cut {α : Type} (a b : α) (P S pre post : List α)
    (h : P ++ S = pre ++ a :: post) (ha : a ∉ S) (hb : b ∈ S) : b ∈ post := by
  rcases List.append_eq_append_iff.mp h with ⟨a', _, hS⟩ | ⟨c', _, hc⟩
  · exact absurd (by rw [hS]; simp) ha
  · cases c' with
    | nil =>
      simp only [List.nil_append] at hc
      exact absurd (by rw [← hc]; simp) ha
    | cons c cs =>
      simp only [List.cons_append, List.cons.injEq] at hc
      rw [hc.2]
      exact List.mem_append_right _ hb

/-- In a list `Q ++ b :: a :: T` cut at an `a`, with no `a` in `Q`, the `b`
comes before the cut. -/
theorem mem_before_cut {α : Type} (a b : α) (hab : a ≠ b) (Q T pre post : List α)
    (h : Q ++ b :: a :: T = pre ++ a :: post) (ha : a ∉ Q) : b ∈ pre := by
  rcases List.append_eq_append_iff.mp h with ⟨a', hpre, hS⟩ | ⟨c', hQ, hc⟩
  · cases a' with
    | nil =>
      simp only [List.nil_append, List.cons.injEq] at hS
      exact absurd hS.1.symm hab
    | cons c cs =>
      simp only [List.cons_append, List.cons.injEq] at hS
      rw [hpre, ← hS.1]
      simp
  · cases c' with
    | nil =>
      simp only [List.nil_append, List.cons.injEq] at hc
      exact absurd hc.1 hab
    | cons c cs =>
      simp only [List.cons_append, List.cons.injEq] at hc
      exact absurd (by rw [hQ, ← hc.1]; simp) ha

/-- C5: with the pointer grabbed, `select_region` returns exactly when the
queue holds a release, and whenever it returns (also when the geometry query
fails, and whatever `xgrab` is) it has issued `XUngrabPointer`, every
`XGrabServer` it issued is followed by an `XUngrabServer`, an `XUngrabServer`
precedes every `XUngrabPointer`, and neither grab is held any more. -/
theorem grabs_released (events : List XEvent) (geometry : Option RootGeometry) (xgrab : Int) :
    (select_region GrabSuccess events geometry xgrab = none ↔
      ∀ e ∈ events, e.isRelease = false) ∧
    ∀ s, select_region GrabSuccess events geometry xgrab = some s →
      XCall.XUngrabPointer ∈ s.calls ∧
      (∀ pre post, s.calls = pre ++ XCall.XGrabServer :: post → XCall.XUngrabServer ∈ post) ∧
      (∀ pre post, s.calls = pre ++ XCall.XUngrabPointer :: post → XCall.XUngrabServer ∈ pre) ∧
      held s.calls = (false, false) := by
  rcases split_at_release events with hno | ⟨evs, rx, ry, rest, rfl, hev⟩
  · have hl := event_loop_none xgrab events Locals.init hno rfl
    have hn : select_region GrabSuccess events geometry xgrab = none := by
      unfold select_region
      rw [hl]
      simp
    rw [hn]
    exact ⟨⟨fun _ => hno, fun _ => rfl⟩, fun s hs => by cases hs⟩
  · have hr := select_region_release xgrab evs rx ry rest geometry hev
    rw [hr]
    constructor
    · constructor
      · intro h; cases h
      · intro h
        have := h (XEvent.ButtonRelease rx ry) (by simp)
        simp [XEvent.isRelease] at this
    · intro s hs
      cases hs
      have hc := run_calls_no_ungrab xgrab evs Locals.init
      refine ⟨by simp [after_loop], ?_, ?_, ?_⟩
      · intro pre post hcut
        exact mem_after_cut XCall.XGrabServer XCall.XUngrabServer _ _ pre post hcut
          (by simp [after_loop]) (by simp [after_loop])
      · intro pre post hcut
        refine mem_before_cut XCall.XUngrabPointer XCall.XUngrabServer (by simp)
          ([XCall.XCreateFontCursor, XCall.XGrabPointer, XCall.XCreateGC] ++
            (run_calls xgrab Locals.init evs ++ [XCall.XNextEvent]) ++
            [XCall.XDrawRectangle (run xgrab Locals.init evs).x (run xgrab Locals.init evs).y
              (run xgrab Locals.init evs).width (run xgrab Locals.init evs).height, XCall.XFlush])
          [XCall.XFreeCursor, XCall.XFreeGC, XCall.XSync, XCall.XGetGeometry] pre post ?_ ?_
        · rw [← hcut]
          simp [after_loop]
        · simp [hc.2]
      · simp [held, after_loop, List.foldl_append, grab_step]

/-- Witness of C5: two presses with `xgrab` set, so that `XGrabServer` is
issued twice, and a geometry query that fails. -/
theorem grabs_released_witness :
    ∃ s, select_region GrabSuccess
        [XEvent.ButtonPress 1 1, XEvent.ButtonPress 2 2, XEvent.MotionNotify 4 4,
         XEvent.ButtonRelease 4 4] none 1 = some s ∧
      XCall.XUngrabPointer ∈ s.calls ∧
      (∀ pre post, s.calls = pre ++ XCall.XGrabServer :: post → XCall.XUngrabServer ∈ post) ∧
      (∀ pre post, s.calls = pre ++ XCall.XUngrabPointer :: post → XCall.XUngrabServer ∈ pre) ∧
      held s.calls = (false, false) :=
  ⟨{ status := 1, region := none,
     calls := [XCall.XCreateFontCursor, XCall.XGrabPointer, XCall.XCreateGC,
       XCall.XNextEvent, XCall.XGrabServer, XCall.XNextEvent, XCall.XGrabServer,
       XCall.XNextEvent, XCall.XDrawRectangle 2 2 0 0, XCall.XDrawRectangle 2 2 2 2,
       XCall.XFlush, XCall.XNextEvent, XCall.XDrawRectangle 2 2 2 2, XCall.XFlush,
       XCall.XUngrabServer, XCall.XUngrabPointer, XCall.XFreeCursor, XCall.XFreeGC,
       XCall.XSync, XCall.XGetGeometry],
     errors := ["failed to get root window geometry\n"], queue := [] },
   by decide,
   (grabs_released
     [XEvent.ButtonPress 1 1, XEvent.ButtonPress 2 2, XEvent.MotionNotify 4 4,
      XEvent.ButtonRelease 4 4] none 1).2 _ (by decide)⟩

/-! ### Strokes -/

/-- C9, at the failing input: a second press while the outline of the
rectangle (0, 0, 10, 10) is on the screen makes the loop forget that
rectangle; by the time `select_region` returns it has been stroked once. -/
theorem stale_outline :
    (select_region GrabSuccess
        [XEvent.ButtonPress 0 0, XEvent.MotionNotify 10 10, XEvent.ButtonPress 5 5,
         XEvent.ButtonRelease 5 5] (some ⟨0, 0, 1920, 1080, 0, 24⟩) 0).map (fun s => s.calls) =
      some [XCall.XCreateFontCursor, XCall.XGrabPointer, XCall.XCreateGC,
        XCall.XNextEvent, XCall.XNextEvent, XCall.XDrawRectangle 0 0 0 0,
        XCall.XDrawRectangle 0 0 10 10, XCall.XFlush, XCall.XNextEvent, XCall.XNextEvent,
        XCall.XDrawRectangle 5 5 0 0, XCall.XFlush, XCall.XUngrabServer,
        XCall.XUngrabPointer, XCall.XFreeCursor, XCall.XFreeGC, XCall.XSync,
        XCall.XGetGeometry] ∧
    (select_region GrabSuccess
        [XEvent.ButtonPress 0 0, XEvent.MotionNotify 10 10, XEvent.ButtonPress 5 5,
         XEvent.ButtonRelease 5 5] (some ⟨0, 0, 1920, 1080, 0, 24⟩) 0).map
          (fun s => strokes 0 0 10 10 s.calls) = some 1 := by
  constructor
  · decide
  · decide

/-- Running through two lists of events in a row. -/
theorem run_append (xgrab : Int) :
    ∀ (a b : List XEvent) (st : Locals),
      run xgrab st (a ++ b) = run xgrab (run xgrab st a) b := by
  intro a
  induction a with
  | nil => intro b st; rfl
  | cons ev evs ih =>
    intro b st
    rw [List.cons_append, run, run, ih]

/-- The calls issued while running through two lists of events in a row. -/
theorem run_calls_append (xgrab : Int) :
    ∀ (a b : List XEvent) (st : Locals),
      run_calls xgrab st (a ++ b) =
        run_calls xgrab st a ++ run_calls xgrab (run xgrab st a) b := by
  intro a
  induction a with
  | nil => intro b st; rfl
  | cons ev evs ih =>
    intro b st
    rw [List.cons_append, run_calls, run_calls, run, ih]
    simp

/-- Before any press, motions and other events change nothing and draw
nothing. -/
theorem idle_run (xgrab : Int) :
    ∀ (evs : List XEvent) (st : Locals), st.btn_pressed = false →
      (∀ e ∈ evs, e.isPress = false ∧ e.isRelease = false) →
      run xgrab st evs = st ∧
      ∀ x y w h, strokes x y w h (run_calls xgrab st evs) = 0 := by
  intro evs
  induction evs with
  | nil => intro st _ _; simp [run, run_calls, strokes]
  | cons ev evs ih =>
    intro st hb hq
    have hev := hq ev (List.mem_cons_self _ _)
    have hrest : ∀ e ∈ evs, e.isPress = false ∧ e.isRelease = false :=
      fun e he => hq e (List.mem_cons_of_mem _ he)
    have hstep : handle_event xgrab st ev = (st, []) := by
      cases ev with
      | ButtonPress ex ey => simp [XEvent.isPress] at hev
      | MotionNotify ex ey => simp [handle_event, hb]
      | ButtonRelease ex ey => simp [XEvent.isRelease] at hev
      | Other => rfl
    have h := ih st hb hrest
    simp only [run, run_calls, hstep, List.nil_append]
    refine ⟨h.1, ?_⟩
    intro x y w h'
    have := h.2 x y w h'
    simp only [strokes] at this ⊢
    rw [List.count_cons, this]
    simp

/-- While the button is held and no further press arrives, the strokes of any
rectangle pair up, but for the rectangle tracked at the start and the one
tracked at the end. -/
theorem held_parity (xgrab : Int) (x y : Int) (w h : Nat) :
    ∀ (evs : List XEvent) (st : Locals), st.btn_pressed = true →
      (∀ e ∈ evs, e.isPress = false ∧ e.isRelease = false) →
      (strokes x y w h (run_calls xgrab st evs) +
        (if rect st = XCall.XDrawRectangle x y w h then 1 else 0) +
        (if rect (run xgrab st evs) = XCall.XDrawRectangle x y w h then 1 else 0)) % 2 = 0 := by
  intro evs
  induction evs with
  | nil =>
    intro st _ _
    simp only [run, run_calls, strokes, List.count_nil]
    split_ifs <;> omega
  | cons ev evs ih =>
    intro st hb hq
    have hev := hq ev (List.mem_cons_self _ _)
    have hrest : ∀ e ∈ evs, e.isPress = false ∧ e.isRelease = false :=
      fun e he => hq e (List.mem_cons_of_mem _ he)
    cases ev with
    | ButtonPress ex ey => simp [XEvent.isPress] at hev
    | ButtonRelease ex ey => simp [XEvent.isRelease] at hev
    | Other =>
      have h1 := ih st hb hrest
      simp only [strokes] at h1 ⊢
      simp only [run, run_calls, handle_event, List.nil_append, List.count_cons]
      simpa using h1
    | MotionNotify ex ey =>
      have hstep : handle_event xgrab st (XEvent.MotionNotify ex ey) =
          ({ st with x := (span ex st.start_x).1, y := (span ey st.start_y).1,
                     width := (span ex st.start_x).2, height := (span ey st.start_y).2 },
           [rect st,
            rect { st with x := (span ex st.start_x).1, y := (span ey st.start_y).1,
                           width := (span ex st.start_x).2, height := (span ey st.start_y).2 },
            XCall.XFlush]) := by
        simp [handle_event, hb, rect]
      have h1 := ih { st with x := (span ex st.start_x).1, y := (span ey st.start_y).1,
                              width := (span ex st.start_x).2, height := (span ey st.start_y).2 }
        hb hrest
      simp only [strokes] at h1 ⊢
      simp only [run, run_calls, hstep, List.cons_append, List.nil_append, List.count_cons,
        beq_iff_eq]
      have hn : ¬ (XCall.XNextEvent = XCall.XDrawRectangle x y w h) := by simp
      have hf : ¬ (XCall.XFlush = XCall.XDrawRectangle x y w h) := by simp
      simp only [hn, hf, if_false, Nat.add_zero]
      split_ifs at h1 ⊢ <;> omega

/-- With at most one press before the release, every rectangle that is not
empty has been stroked an even number of times when `select_region` returns. -/
theorem strokes_even_single_press (xgrab : Int) (pre mid rest : List XEvent)
    (ax ay rx ry : Int) (geometry : Option RootGeometry)
    (hpre : ∀ e ∈ pre, e.isPress = false ∧ e.isRelease = false)
    (hmid : ∀ e ∈ mid, e.isPress = false ∧ e.isRelease = false)
    (x y : Int) (w h : Nat) (hnz : w ≠ 0 ∨ h ≠ 0) :
    ∃ s, select_region GrabSuccess
        (pre ++ XEvent.ButtonPress ax ay :: (mid ++ XEvent.ButtonRelease rx ry :: rest))
        geometry xgrab = some s ∧
      strokes x y w h s.calls % 2 = 0 := by
  have hev : ∀ e ∈ pre ++ XEvent.ButtonPress ax ay :: mid, e.isRelease = false := by
    intro e he
    rcases List.mem_append.mp he with he | he
    · exact (hpre e he).2
    · rcases List.mem_cons.mp he with rfl | he
      · rfl
      · exact (hmid e he).2
  have hr := select_region_release xgrab (pre ++ XEvent.ButtonPress ax ay :: mid) rx ry rest
    geometry hev
  rw [List.append_assoc, List.cons_append] at hr
  refine ⟨_, hr, ?_⟩
  have hidle := idle_run xgrab pre Locals.init rfl hpre
  have hpar := held_parity xgrab x y w h mid (pressed_at ax ay) rfl hmid
  have hz : ¬ (rect (pressed_at ax ay) = XCall.XDrawRectangle x y w h) := by
    simp only [rect, pressed_at, XCall.XDrawRectangle.injEq, not_and]
    intro _ _ hw hh
    rcases hnz with h0 | h0
    · exact h0 hw.symm
    · exact h0 hh.symm
  rw [if_neg hz] at hpar
  have hp0 := hidle.2 x y w h
  have hrun : run xgrab Locals.init (pre ++ XEvent.ButtonPress ax ay :: mid) =
      run xgrab (pressed_at ax ay) mid := by
    rw [run_append, hidle.1]
    simp [run, handle_event, Locals.init, pressed_at]
  have hcalls :
      strokes x y w h (run_calls xgrab Locals.init (pre ++ XEvent.ButtonPress ax ay :: mid)) =
        strokes x y w h (run_calls xgrab (pressed_at ax ay) mid) := by
    rw [run_calls_append, hidle.1]
    simp only [strokes] at hp0 ⊢
    rw [List.count_append, hp0]
    by_cases hx : xgrab = 0 <;>
      simp [run_calls, handle_event, Locals.init, pressed_at, hx, List.count_cons]
  simp only [strokes] at hpar hcalls ⊢
  simp only [hrun, List.count_append, hcalls, after_loop, List.count_cons, List.count_nil,
    beq_iff_eq]
  simp only [rect] at hpar
  simp only [reduceCtorEq, if_false]
  split_ifs at hpar ⊢ <;> omega

/-! ### Reading the format -/

/-- The terminator read as a directive writes nothing. -/
theorem directive_nul (region : Region) : directive region NUL = [] := by
  have h1 : NUL ≠ '%' := by decide
  have h2 : NUL ≠ 'x' := by decide
  have h3 : NUL ≠ 'y' := by decide
  have h4 : NUL ≠ 'X' := by decide
  have h5 : NUL ≠ 'Y' := by decide
  have h6 : NUL ≠ 'w' := by decide
  have h7 : NUL ≠ 'h' := by decide
  have h8 : NUL ≠ 'b' := by decide
  have h9 : NUL ≠ 'd' := by decide
  simp [directive, h1, h2, h3, h4, h5, h6, h7, h8, h9]

/-- C10, at the failing input: on the format `%` the terminator is at offset
1, yet after reading it as a directive the loop resumes its scan at offset 2,
whatever lies there; when the string `A` follows in memory, offsets 2 and 3
are read and the `A` is written. -/
theorem read_past_terminator (region : Region) :
    (∀ tail : List Char,
      terminator ('%' :: NUL :: tail) = 1 ∧
      print_region_attr ('%' :: NUL :: tail) region =
        (scan region tail 2).map
          (fun p => { out := p.out, reads := 0 :: 0 :: 1 :: p.reads })) ∧
    print_region_attr ['%', NUL, 'A', NUL] region =
      some { out := ['A'], reads := [0, 0, 1, 2, 2, 2, 3] } := by
  have hA : 'A' ≠ NUL := by decide
  have hA' : 'A' ≠ '%' := by decide
  have hP : '%' ≠ NUL := by decide
  refine ⟨fun tail => ⟨?_, ?_⟩, ?_⟩
  · simp [terminator, cstr, List.takeWhile, hP]
  · simp [print_region_attr, scan_percent, directive_nul]
  · simp [print_region_attr, scan_percent, scan_plain, scan_nul, hA, hA', directive_nul]

end Xrectsel
